import Mathlib

/-!
Verification development for the `gpass` secret store
(`encrypt` package: PGP crypto engine; `git` package: repository state machine).

The Go sources are shallowly embedded: pure control flow is translated
line-by-line; the external libraries (`golang.org/x/crypto/openpgp` and
`gopkg.in/src-d/go-git.v4`) are modelled symbolically as the abstract
capability set the design document describes (armor blocks, entities,
reference store, worktree checkout/commit).  I/O (terminal prompt,
filesystem) is modelled by explicit state passing.
-/

namespace GoPass

/-! ## Crypto engine data model -/

/-- A private key packet: whether its material is still passphrase-protected,
and (symbolically) the unique passphrase that decrypts it. -/
structure PrivKey where
  encrypted : Bool
  pass : String
  deriving DecidableEq, Repr

/-- An OpenPGP subkey; in the source a subkey always carries a private key
pointer which `Keyring` decrypts best-effort. -/
structure Subkey where
  privateKey : PrivKey
  deriving DecidableEq, Repr

/-- An OpenPGP entity: an optional primary private key plus subkeys. -/
structure Entity where
  privateKey : Option PrivKey
  subkeys : List Subkey
  deriving DecidableEq, Repr

/-- Symbolic byte strings for `PGP.Message`: either raw (non-armored) bytes,
an armored OpenPGP message produced by `openpgp.Encrypt` (carrying its armor
block type, the recipient entities, and the enclosed payload), or an armored
block whose body is not a readable message. -/
inductive Bytes where
  | raw (bs : List Nat)
  | armoredMsg (btype : String) (recipients : List Entity) (payload : Bytes)
  | armoredJunk (btype : String)
  deriving DecidableEq, Repr

/-- The source's `len(f.Message) == 0` check: only a raw empty byte string has
length zero (armored text always contains header lines). -/
def Bytes.isEmpty : Bytes → Bool
  | .raw bs => bs.isEmpty
  | .armoredMsg _ _ _ => false
  | .armoredJunk _ => false

/-- Body of an armored private-key block: either unreadable by
`openpgp.ReadEntity`, or a parsed entity. -/
inductive KeyBody where
  | unreadable
  | entityData (e : Entity)
  deriving DecidableEq, Repr

/-- Symbolic bytes for `PGP.PrivateKey`: either not armor-decodable, or an
armored block with a type string and a body. -/
inductive KeyBytes where
  | notArmored
  | armored (btype : String) (body : KeyBody)
  deriving DecidableEq, Repr

/-- The `PGP` struct from the source.  The `Passphrase openpgp.PromptFunction`
field is modelled by the prompt queue in `CryptoState` rather than as a field,
so that the structure stays first-order. -/
structure PGP where
  privateKey : KeyBytes
  message : Bytes
  encrypted : Bool
  deriving DecidableEq, Repr

/-- Error taxonomy of the crypto engine and file persistence, one constructor
per distinct `fmt.Errorf` site in the source (names follow the design
document's taxonomy). -/
inductive Err where
  | notArmored
  | notPrivateKey
  | keyParseError
  | keyDecryptFailed
  | alreadyEncrypted
  | notEncrypted
  | invalidArmor
  | wrongMessageType
  | encryptionError
  | decryptionError
  | emptyMessage
  | refusePlaintextWrite
  | fileExists
  deriving DecidableEq, Repr

/-- Process-wide crypto session state: the global `entityList` keyring and the
stream of passphrases the interactive terminal will yield (one per
`shellPrompt` call; an exhausted stream models a terminal read error, which
the source turns into a nil passphrase). -/
structure CryptoState where
  entityList : List Entity
  prompts : List String
  deriving DecidableEq, Repr

/-- Embedding of `shellPrompt`: reads one passphrase from the terminal: it consumes exactly
one element of the prompt stream and yields `""` (nil bytes) when the stream
is exhausted. -/
def shellPrompt (st : CryptoState) : String × CryptoState :=
  (st.prompts.headD "", { st with prompts := st.prompts.drop 1 })

/-- Model of `packet.PrivateKey.Decrypt`: succeeds returning the key unchanged if it is
not encrypted, otherwise succeeds (clearing the flag) exactly when the
passphrase matches. -/
def PrivKey.decrypt (k : PrivKey) (p : String) : Option PrivKey :=
  if k.encrypted = false then some k
  else if p = k.pass then some { k with encrypted := false } else none

/-- The subkey loop of `Keyring`: each subkey's private key is decrypted with
the given passphrase, failures being silently ignored (the subkey keeps its
old state). -/
def decryptSubkeys (pass : String) (subs : List Subkey) : List Subkey :=
  subs.map fun sk =>
    { privateKey := (sk.privateKey.decrypt pass).getD sk.privateKey }

/-- The entity as `Keyring` appends it on full success: primary key decrypted
(when present and protected) and every subkey decrypted best-effort, all with
the one passphrase `pass`. -/
def decryptEntityWith (pass : String) (ent : Entity) : Entity :=
  { privateKey :=
      match ent.privateKey with
      | none => none
      | some mk => if mk.encrypted then mk.decrypt pass else some mk
    subkeys := decryptSubkeys pass ent.subkeys }

/-- Embedding of `PGP.Keyring` from the source: prompts the terminal once, armor-decodes
the private key bytes, checks the block type against
`openpgp.PrivateKeyType`, reads the entity, decrypts the primary key (fatal
on failure) and the subkeys (best-effort), and appends the decrypted entity
to the global `entityList`. -/
def Keyring (st : CryptoState) (f : PGP) : Except Err Unit × CryptoState :=
  let (passphraseByte, st1) := shellPrompt st
  match f.privateKey with
  | .notArmored => (.error .notArmored, st1)
  | .armored btype body =>
    if btype ≠ "PGP PRIVATE KEY BLOCK" then (.error .notPrivateKey, st1)
    else
      match body with
      | .unreadable => (.error .keyParseError, st1)
      | .entityData entity =>
        let mainStep : Except Err (Option PrivKey) :=
          match entity.privateKey with
          | none => .ok none
          | some mk =>
            if mk.encrypted then
              match mk.decrypt passphraseByte with
              | some mk2 => .ok (some mk2)
              | none => .error .keyDecryptFailed
            else .ok (some mk)
        match mainStep with
        | .error e => (.error e, st1)
        | .ok mk2 =>
          (.ok (),
            { st1 with
              entityList := st1.entityList ++
                [{ privateKey := mk2
                   subkeys := decryptSubkeys passphraseByte entity.subkeys }] })

/-- Model of the `openpgp.ReadMessage` key lookup, symbolically: the session keyring can
open a ciphertext iff one of its entities is among the recipients. -/
def canDecrypt (ring recipients : List Entity) : Bool :=
  ring.any fun e => recipients.any fun r => decide (r = e)

/-- Embedding of `PGP.Encrypt` from the source: refuses an already-encrypted message, then
armors ("PGP MESSAGE") the `openpgp.Encrypt` ciphertext addressed to every
entity of the session `entityList` (which fails when the keyring is empty),
and replaces the message, setting the encrypted flag. -/
def Encrypt (st : CryptoState) (f : PGP) : Except Err PGP :=
  if f.encrypted then .error .alreadyEncrypted
  else if st.entityList.isEmpty then .error .encryptionError
  else
    .ok { f with
          message := .armoredMsg "PGP MESSAGE" st.entityList f.message
          encrypted := true }

/-- Embedding of `PGP.Decrypt` from the source: refuses a non-encrypted message, armor
decodes it, requires block type exactly "PGP MESSAGE", then
`openpgp.ReadMessage` with the session keyring; on success the plaintext
payload replaces the message and the encrypted flag is cleared. -/
def Decrypt (st : CryptoState) (f : PGP) : Except Err PGP :=
  if f.encrypted = false then .error .notEncrypted
  else
    match f.message with
    | .raw _ => .error .invalidArmor
    | .armoredJunk btype =>
      if btype ≠ "PGP MESSAGE" then .error .wrongMessageType
      else .error .decryptionError
    | .armoredMsg btype recipients payload =>
      if btype ≠ "PGP MESSAGE" then .error .wrongMessageType
      else if canDecrypt st.entityList recipients then
        .ok { f with message := payload, encrypted := false }
      else .error .decryptionError

/-! ## File persistence -/

/-- The filesystem, as the map of existing files to their contents. -/
structure FS where
  files : List (String × Bytes)
  deriving DecidableEq, Repr

/-- Model of `path.Join(repoPath, filename)`. -/
def pathJoin (a b : String) : String := a ++ "/" ++ b

/-- Embedding of `PGP.WriteFile` from the source: rejects an empty message, then
unencrypted content, then an existing file at the joined path; otherwise
creates the file (mode 0600, not modelled) and writes the message.  Only a
successful call changes the filesystem. -/
def WriteFile (f : PGP) (fs : FS) (repoPath filename : String) :
    Except Err Unit × FS :=
  if f.message.isEmpty then (.error .emptyMessage, fs)
  else if f.encrypted = false then (.error .refusePlaintextWrite, fs)
  else
    let p := pathJoin repoPath filename
    match fs.files.find? (fun kv => kv.1 == p) with
    | some _ => (.error .fileExists, fs)
    | none => (.ok (), { files := fs.files ++ [(p, f.message)] })

/-! ## Repository state machine data model -/

/-- A git hash reference: full name (e.g. "refs/heads/main") and target commit
hash.  Commit hashes are modelled as positive naturals; `0` stands for
`plumbing.ZeroHash`. -/
structure Reference where
  name : String
  hash : Nat
  deriving DecidableEq, Repr

/-- A commit object. -/
structure CommitObj where
  hash : Nat
  parents : List Nat
  authorName : String
  authorEmail : String
  message : String
  when : Nat
  deriving DecidableEq, Repr

/-- The `git.User` identity (home folder omitted: unused by the state
machine). -/
structure User where
  name : String
  email : String
  deriving DecidableEq, Repr

/-- The opened repository: reference store, object store, the full name of the
checked-out branch (HEAD), a fresh-hash supply, a clock for `time.Now()`, and
a fault flag modelling failure of the reference-listing storer call. -/
structure Repo where
  refs : List Reference
  commits : List CommitObj
  head : Option String
  nextHash : Nat
  clock : Nat
  refsBroken : Bool
  deriving DecidableEq, Repr

/-- Repository state machine errors (design document taxonomy;
`referenceNotFound` models the passed-through `plumbing.ErrReferenceNotFound`,
covering both `BranchNotFound` and `TagNotFound`). -/
inductive GitErr where
  | referenceNotFound
  | objectNotFound
  | worktreeError
  | commitError
  deriving DecidableEq, Repr

/-- Model of `r.root.Reference(name, false)`: resolve a reference by exact name. -/
def Repo.reference (r : Repo) (n : String) : Except GitErr Reference :=
  match r.refs.find? (fun x => x.name == n) with
  | some ref => .ok ref
  | none => .error .referenceNotFound

/-- Model of `r.root.References()` as the source uses it: the error is discarded
(`refs, _ :=`), so a failed listing yields no references to iterate. -/
def Repo.referencesIter (r : Repo) : List Reference :=
  if r.refsBroken then [] else r.refs

/-- Model of `r.root.Storer.SetReference`: create or overwrite the reference with that
name. -/
def Repo.setReference (r : Repo) (ref : Reference) : Repo :=
  { r with refs := r.refs.filter (fun x => x.name != ref.name) ++ [ref] }

/-- Hash of the checked-out branch's tip. -/
def Repo.headHash (r : Repo) : Except GitErr Nat :=
  match r.head with
  | none => .error .referenceNotFound
  | some hn =>
    match r.reference hn with
    | .error e => .error e
    | .ok ref => .ok ref.hash

/-- Model of `worktree.Checkout` with a branch name, modelled from the spec's abstract
capability set (go-git is not part of this repository): with `Create` the
branch must not exist and is created at `hash` (or, for the zero hash, at the
current HEAD tip); without `Create` the branch must exist.  Either way HEAD
moves onto the branch.  Worktree file contents are not modelled. -/
def Repo.checkout (r : Repo) (create : Bool) (branch : String) (hash : Nat) :
    Except GitErr Repo :=
  if create then
    if r.refs.any (fun x => x.name == branch) then .error .worktreeError
    else
      match (if hash ≠ 0 then Except.ok hash else r.headHash) with
      | .error e => .error e
      | .ok h =>
        .ok { r.setReference { name := branch, hash := h } with
              head := some branch }
  else
    if r.refs.any (fun x => x.name == branch) then .ok { r with head := some branch }
    else .error .referenceNotFound

/-- Model of `worktree.Commit`, modelled from the spec's abstract capability set: a new
commit object is created (fresh hash, authored by `u`, timestamped by the
clock) and the checked-out branch advances to it.  An explicitly supplied
`Parents` list is used as given (`CreateOrphanBranch` passes the empty list:
a root commit); an omitted `Parents` field (`none`) defaults to the current
tip, matching ordinary git commit semantics. -/
def Repo.worktreeCommit (r : Repo) (msg : String) (u : User)
    (parents : Option (List Nat)) : Except GitErr (Repo × Nat) :=
  match r.head with
  | none => .error .commitError
  | some hname =>
    let ps : List Nat :=
      match parents with
      | some l => l
      | none =>
        match r.headHash with
        | .ok h => [h]
        | .error _ => []
    let c : CommitObj :=
      { hash := r.nextHash, parents := ps, authorName := u.name
        authorEmail := u.email, message := msg, when := r.clock }
    .ok ({ r.setReference { name := hname, hash := r.nextHash } with
           commits := r.commits ++ [c]
           nextHash := r.nextHash + 1
           clock := r.clock + 1 }, r.nextHash)

/-! ## Repository state machine operations -/

/-- Embedding of `Repository.CreateBranch`: checkout-create `newName` at the tip of
`originName`. -/
def Repo.CreateBranch (r : Repo) (originName newName : String) :
    Except GitErr Repo :=
  let origin := "refs/heads/" ++ originName
  let freshName := "refs/heads/" ++ newName
  match r.reference origin with
  | .error e => .error e
  | .ok ref =>
    match r.checkout true freshName ref.hash with
    | .error _ => .error .worktreeError
    | .ok r2 => .ok r2

/-- Embedding of `Repository.CreateOrphanBranch`: checkout-create the branch (zero hash),
then commit with an explicitly empty parent list and the fixed message
template. -/
def Repo.CreateOrphanBranch (r : Repo) (u : User) (s : String) :
    Except GitErr Repo :=
  let name := "refs/heads/" ++ s
  match r.checkout true name 0 with
  | .error _ => .error .worktreeError
  | .ok r2 =>
    match r2.worktreeCommit ("creating branch for: " ++ s) u (some []) with
    | .error _ => .error .commitError
    | .ok (r3, _) => .ok r3

/-- Embedding of `Repository.CheckoutBranch`: switch to an existing branch. -/
def Repo.CheckoutBranch (r : Repo) (s : String) : Except GitErr Repo :=
  match r.checkout false ("refs/heads/" ++ s) 0 with
  | .error _ => .error .worktreeError
  | .ok r2 => .ok r2

/-- Embedding of `Repository.AddTagBranch` from the source.  Note the stored reference's
name is the bare `tag` string (`plumbing.ReferenceName(tag)`), not
`"refs/tags/" ++ tag`. -/
def Repo.AddTagBranch (r : Repo) (tag : String) (s : String) :
    Except GitErr Repo :=
  let name := "refs/heads/" ++ s
  match r.reference name with
  | .error e => .error e
  | .ok ref =>
    match r.commits.find? (fun c => c.hash == ref.hash) with
    | none => .error .objectNotFound
    | some commit => .ok (r.setReference { name := tag, hash := commit.hash })

/-- Embedding of `Repository.TagBranch`: resolve `refs/tags/<s>` and checkout
(creating iff `create`) branch `refs/heads/<s>` at the tag's hash. -/
def Repo.TagBranch (r : Repo) (s : String) (create : Bool) :
    Except GitErr Repo :=
  let tag := "refs/tags/" ++ s
  let name := "refs/heads/" ++ s
  match r.reference tag with
  | .error e => .error e
  | .ok ref =>
    match r.checkout create name ref.hash with
    | .error _ => .error .worktreeError
    | .ok r2 => .ok r2

/-- Embedding of `Repository.Commit` from the source: commits the worktree (`All: true`)
with no explicit parents; the `filename` argument is never read. -/
def Repo.Commit (r : Repo) (u : User) (filename : String) (msg : String) :
    Except GitErr Repo :=
  match r.worktreeCommit msg u none with
  | .error _ => .error .commitError
  | .ok (r2, _) => .ok r2

/-- Model of `strings.HasPrefix(s, pre)`, on the underlying character lists (so that
concrete instances evaluate inside the kernel). -/
def strStarts (s pre : String) : Bool := pre.data.isPrefixOf s.data

/-- Model of `plumbing.ReferenceName.Short`: strip the branch or tag namespace. -/
def refShort (n : String) : String :=
  if strStarts n "refs/heads/" then { data := n.data.drop 11 }
  else if strStarts n "refs/tags/" then { data := n.data.drop 10 }
  else n

/-- Model of `plumbing.ReferenceName.IsBranch`. -/
def refIsBranch (n : String) : Bool := strStarts n "refs/heads/"

/-- Model of `plumbing.ReferenceName.IsTag`. -/
def refIsTag (n : String) : Bool := strStarts n "refs/tags/"

/-- Embedding of `Repository.ListBranches`: collect short names of branch references from
the (error-discarded) listing. -/
def Repo.ListBranches (r : Repo) : List String :=
  (r.referencesIter.filter (fun ref => refIsBranch ref.name)).map
    (fun ref => refShort ref.name)

/-- Embedding of `Repository.BranchExists`. -/
def Repo.BranchExists (r : Repo) (n : String) : Bool :=
  r.referencesIter.any fun ref => refIsBranch ref.name && refShort ref.name == n

/-- Embedding of `Repository.TagExists`. -/
def Repo.TagExists (r : Repo) (n : String) : Bool :=
  r.referencesIter.any fun ref => refIsTag ref.name && refShort ref.name == n

/-! ## Helper lemmas on the reference store -/

/-- Equality on `Except` is decidable when both components' is; needed to settle
concrete runs of the embedded operations by `decide`. -/
instance {ε α : Type} [DecidableEq ε] [DecidableEq α] :
    DecidableEq (Except ε α) := fun a b =>
  match a, b with
  | .ok x, .ok y =>
    if h : x = y then .isTrue (congrArg Except.ok h)
    else .isFalse (fun hc => h (Except.ok.inj hc))
  | .error x, .error y =>
    if h : x = y then .isTrue (congrArg Except.error h)
    else .isFalse (fun hc => h (Except.error.inj hc))
  | .ok _, .error _ => .isFalse (fun hc => Except.noConfusion hc)
  | .error _, .ok _ => .isFalse (fun hc => Except.noConfusion hc)

theorem find?_filter_of_imp {α : Type} (l : List α) (q p : α → Bool)
    (h : ∀ x, p x = true → q x = true) :
    (l.filter q).find? p = l.find? p := by
  induction l with
  | nil => rfl
  | cons x l ih =>
    cases hq : q x with
    | true =>
      rw [List.filter_cons_of_pos hq]
      cases hp : p x with
      | true => rw [List.find?_cons_of_pos _ hp, List.find?_cons_of_pos _ hp]
      | false =>
        rw [List.find?_cons_of_neg _ (by simp [hp]),
          List.find?_cons_of_neg _ (by simp [hp]), ih]
    | false =>
      have hnp : ¬ p x = true := fun hc => by
        have := h x hc
        simp [hq] at this
      rw [List.filter_cons_of_neg (by simp [hq]), ih,
        List.find?_cons_of_neg _ hnp]

theorem find?_filter_none {α : Type} (l : List α) (q p : α → Bool)
    (h : ∀ x, q x = true → p x = false) :
    (l.filter q).find? p = none := by
  apply List.find?_eq_none.mpr
  intro x hx
  have hmem := List.mem_filter.mp hx
  simp [h x hmem.2]

/-- Looking up by name over an updated reference list, at the updated name. -/
theorem find?_setlist_self (l : List Reference) (n : String) (v : Nat) :
    ((l.filter fun x => x.name != n) ++
        [({ name := n, hash := v } : Reference)]).find?
      (fun x => x.name == n) = some ({ name := n, hash := v } : Reference) := by
  rw [List.find?_append, find?_filter_none]
  · simp
  · intro x hx
    simpa using hx

/-- Looking up by name over an updated reference list, at any other name. -/
theorem find?_setlist_ne (l : List Reference) (b : String) (v : Nat)
    (n : String) (h : n ≠ b) :
    ((l.filter fun x => x.name != b) ++
        [({ name := b, hash := v } : Reference)]).find?
      (fun x => x.name == n) = l.find? (fun x => x.name == n) := by
  rw [List.find?_append, find?_filter_of_imp]
  · have h2 : List.find? (fun x => x.name == n)
        [({ name := b, hash := v } : Reference)] = none := by
      simp
      exact fun hh => absurd hh.symm h
    rw [h2]
    cases l.find? (fun x => x.name == n) <;> rfl
  · intro x hx
    have hx2 : x.name = n := by simpa using hx
    simp [hx2]
    exact fun hh => h hh

/-! ## Claim theorems -/

/-- repository for the C1 evaluation: one branch "alpha" at commit 1. -/
def repoC1 : Repo :=
  { refs := [{ name := "refs/heads/alpha", hash := 1 }]
    commits := [{ hash := 1, parents := [], authorName := "Alice"
                  authorEmail := "alice@example.com", message := "root", when := 0 }]
    head := some "refs/heads/alpha"
    nextHash := 2
    clock := 1
    refsBroken := false }

/-- repository state after `repoC1.AddTagBranch "v1" "alpha"`. -/
def repoC1after : Repo :=
  { repoC1 with
    refs := [{ name := "refs/heads/alpha", hash := 1 }, { name := "v1", hash := 1 }] }

/-- Claim C1 (code bug): with branch "alpha" at commit 1, `AddTagBranch "v1"`
succeeds but stores a reference literally named "v1" rather than
"refs/tags/v1", so the subsequent `TagBranch "v1" create=true` fails with a
reference-not-found error instead of creating branch "v1" at commit 1; the
repository's own `TagExists "v1"` does not see the new reference either. -/
theorem addTagBranch_promotion_fails :
    repoC1.AddTagBranch "v1" "alpha" = .ok repoC1after ∧
    repoC1after.reference "v1" = .ok { name := "v1", hash := 1 } ∧
    repoC1after.reference "refs/tags/v1" = .error .referenceNotFound ∧
    repoC1after.TagBranch "v1" true = .error .referenceNotFound ∧
    repoC1after.TagExists "v1" = false ∧
    repoC1after.BranchExists "v1" = false := by decide

/-- Claim C10: `Commit` never reads its `filename` argument, so any two calls
differing only in the filename have identical result and identical effect on
the repository (the embedding mirrors the source, where `filename` is
unused). -/
theorem commit_ignores_filename (r : Repo) (u : User) (f1 f2 msg : String) :
    r.Commit u f1 msg = r.Commit u f2 msg := rfl

/-- Claim C7: when the underlying reference listing fails (the discarded-error
pattern `refs, _ := r.root.References()`), `ListBranches`, `BranchExists` and
`TagExists` return the empty list, `false` and `false` respectively; the
functions are total (they never raise). -/
theorem predicates_on_listing_failure (r : Repo) (h : r.refsBroken = true) :
    r.ListBranches = [] ∧ (∀ n, r.BranchExists n = false) ∧
    (∀ n, r.TagExists n = false) := by
  have hiter : r.referencesIter = [] := by simp [Repo.referencesIter, h]
  simp [Repo.ListBranches, Repo.BranchExists, Repo.TagExists, hiter]

/-- repository with a broken reference listing (yet a branch in the store). -/
def repoBroken : Repo :=
  { refs := [{ name := "refs/heads/main", hash := 1 }]
    commits := []
    head := some "refs/heads/main"
    nextHash := 2
    clock := 0
    refsBroken := true }

/-- Witness for C7 at a concrete repository whose listing fails. -/
theorem predicates_on_listing_failure_witness :
    repoBroken.refsBroken = true ∧ repoBroken.ListBranches = [] ∧
    repoBroken.BranchExists "main" = false ∧ repoBroken.TagExists "main" = false := by
  have h := predicates_on_listing_failure repoBroken rfl
  exact ⟨rfl, h.1, h.2.1 "main", h.2.2 "main"⟩

/-- an empty plaintext message. -/
def pgpEmptyPlain : PGP :=
  { privateKey := .notArmored, message := .raw [], encrypted := false }

/-- the empty filesystem. -/
def fsEmpty : FS := { files := [] }

/-- Counterexample to Claim C5 as stated: for the empty plaintext message,
`WriteFile` fails with the empty-message error, not `RefusePlaintextWrite`
(the emptiness check precedes the plaintext check in the source); no file is
created. -/
theorem writeFile_empty_plaintext_counterexample :
    pgpEmptyPlain.encrypted = false ∧
    (WriteFile pgpEmptyPlain fsEmpty "repo" "secret").1 = .error .emptyMessage ∧
    (WriteFile pgpEmptyPlain fsEmpty "repo" "secret").1 ≠ .error .refusePlaintextWrite ∧
    (WriteFile pgpEmptyPlain fsEmpty "repo" "secret").2 = fsEmpty := by decide

/-- Claim C5 (amended): a plaintext (`encrypted = false`) message never
reaches the disk — the filesystem is unchanged; a non-empty plaintext message
fails with `RefusePlaintextWrite`, an empty one fails with the earlier
`EmptyMessage` check. -/
theorem writeFile_plaintext_guard (f : PGP) (fs : FS) (rp fn : String)
    (h : f.encrypted = false) :
    (WriteFile f fs rp fn).2 = fs ∧
    (f.message.isEmpty = false →
      (WriteFile f fs rp fn).1 = .error .refusePlaintextWrite) ∧
    (f.message.isEmpty = true →
      (WriteFile f fs rp fn).1 = .error .emptyMessage) := by
  unfold WriteFile
  cases hm : f.message.isEmpty <;> simp [hm, h]

/-- a non-empty plaintext message. -/
def pgpPlain : PGP :=
  { privateKey := .notArmored, message := .raw [7, 7, 7], encrypted := false }

/-- Witness for C5 (amended) at a concrete non-empty plaintext message. -/
theorem writeFile_plaintext_guard_witness :
    pgpPlain.encrypted = false ∧ pgpPlain.message.isEmpty = false ∧
    (WriteFile pgpPlain fsEmpty "repo" "secret").2 = fsEmpty ∧
    (WriteFile pgpPlain fsEmpty "repo" "secret").1 = .error .refusePlaintextWrite := by
  have h := writeFile_plaintext_guard pgpPlain fsEmpty "repo" "secret" rfl
  exact ⟨rfl, rfl, h.1, h.2.1 rfl⟩

/-- Claim C6: on a path with no existing file, a first `WriteFile` of valid
(non-empty, encrypted) content succeeds and stores the message; a second
`WriteFile` to the same path (with any valid content) fails with `FileExists`
and leaves the filesystem — in particular the first file's content —
unchanged. -/
theorem writeFile_write_once (f g : PGP) (fs : FS) (rp fn : String)
    (hf1 : f.encrypted = true) (hf2 : f.message.isEmpty = false)
    (hg1 : g.encrypted = true) (hg2 : g.message.isEmpty = false)
    (h3 : fs.files.find? (fun kv => kv.1 == pathJoin rp fn) = none) :
    ∃ fs1, WriteFile f fs rp fn = (.ok (), fs1) ∧
      fs1.files.find? (fun kv => kv.1 == pathJoin rp fn) =
        some (pathJoin rp fn, f.message) ∧
      WriteFile g fs1 rp fn = (.error .fileExists, fs1) := by
  refine ⟨{ files := fs.files ++ [(pathJoin rp fn, f.message)] }, ?_, ?_, ?_⟩
  · unfold WriteFile
    simp [hf1, hf2, h3]
  · simp [List.find?_append, h3]
  · unfold WriteFile
    simp [hg1, hg2, List.find?_append, h3]

/-- a valid encrypted message. -/
def pgpEnc : PGP :=
  { privateKey := .notArmored
    message := .armoredMsg "PGP MESSAGE" [] (.raw [1, 2, 3])
    encrypted := true }

/-- Claim C3: with a valid single-entity keyring, encrypting a plaintext
message succeeds, flipping the flag to `true`, and decrypting the result
restores exactly the original message with the flag back at `false` (the
final `PGP` value equals the initial one). -/
theorem encrypt_decrypt_roundtrip (st : CryptoState) (e0 : Entity) (f : PGP)
    (hst : st.entityList = [e0]) (henc : f.encrypted = false) :
    ∃ f1, Encrypt st f = .ok f1 ∧ f1.encrypted = true ∧ Decrypt st f1 = .ok f := by
  obtain ⟨fpk, fmsg, fenc⟩ := f
  dsimp only at henc
  subst henc
  refine ⟨{ privateKey := fpk
            message := .armoredMsg "PGP MESSAGE" st.entityList fmsg
            encrypted := true }, ?_, rfl, ?_⟩
  · unfold Encrypt
    simp [hst]
  · unfold Decrypt
    simp [canDecrypt, hst]

/-- a decrypted single-key entity. -/
def entRt : Entity :=
  { privateKey := some { encrypted := false, pass := "p" }, subkeys := [] }

/-- session keyring holding exactly `entRt`. -/
def stRt : CryptoState := { entityList := [entRt], prompts := [] }

/-- a concrete plaintext message. -/
def fRt : PGP :=
  { privateKey := .notArmored, message := .raw [10, 20, 30], encrypted := false }

/-- Witness for C3 at a concrete keyring and plaintext. -/
theorem encrypt_decrypt_roundtrip_witness :
    stRt.entityList = [entRt] ∧ fRt.encrypted = false ∧
    (∃ f1, Encrypt stRt fRt = .ok f1 ∧ f1.encrypted = true ∧
      Decrypt stRt f1 = .ok fRt) :=
  ⟨rfl, rfl, encrypt_decrypt_roundtrip stRt entRt fRt rfl rfl⟩

/-- a passphrase-protected main key whose passphrase is "b". -/
def mkNoRetry : PrivKey := { encrypted := true, pass := "b" }

/-- an entity whose only private material is `mkNoRetry`. -/
def entNoRetry : Entity := { privateKey := some mkNoRetry, subkeys := [] }

/-- armored private-key input carrying `entNoRetry`. -/
def fNoRetry : PGP :=
  { privateKey := .armored "PGP PRIVATE KEY BLOCK" (.entityData entNoRetry)
    message := .raw []
    encrypted := false }

/-- a passphrase source offering "a" then the correct "b". -/
def stNoRetry : CryptoState := { entityList := [], prompts := ["a", "b"] }

/-- Counterexample to Claim C4 as stated: the passphrase source still holds a
passphrase ("b") that decrypts the main key, yet `Keyring` fails after the
first wrong passphrase ("a") without prompting again — it consumes exactly
one prompt and appends nothing, instead of retrying until the source is
exhausted. -/
theorem keyring_no_retry_counterexample :
    (mkNoRetry.decrypt "b").isSome = true ∧
    stNoRetry.prompts = ["a", "b"] ∧
    (Keyring stNoRetry fNoRetry).1 = .error .keyDecryptFailed ∧
    (Keyring stNoRetry fNoRetry).2.entityList = [] ∧
    (Keyring stNoRetry fNoRetry).2.prompts = ["b"] := by decide

/-- Claim C4 (amended): with a passphrase-protected main key, `Keyring`
prompts the source exactly once; the call succeeds — and only then appends
the entity — iff that single passphrase decrypts the main key, and fails with
the key-decryption error otherwise.  There is no retry loop. -/
theorem keyring_single_prompt_decides (st : CryptoState) (ent : Entity)
    (mk : PrivKey) (f : PGP)
    (hk : f.privateKey = KeyBytes.armored "PGP PRIVATE KEY BLOCK" (.entityData ent))
    (hm : ent.privateKey = some mk) (he : mk.encrypted = true) :
    (mk.decrypt (st.prompts.headD "") = none →
      Keyring st f = (.error .keyDecryptFailed,
        { entityList := st.entityList, prompts := st.prompts.drop 1 })) ∧
    (∀ mk2, mk.decrypt (st.prompts.headD "") = some mk2 →
      Keyring st f = (.ok (),
        { entityList := st.entityList ++
            [{ privateKey := some mk2
               subkeys := decryptSubkeys (st.prompts.headD "") ent.subkeys }]
          prompts := st.prompts.drop 1 })) := by
  constructor
  · intro hd
    simp only [List.headD_eq_head?_getD] at hd
    unfold Keyring shellPrompt
    rw [hk]
    simp [hm, he, hd]
  · intro mk2 hd
    simp only [List.headD_eq_head?_getD] at hd
    unfold Keyring shellPrompt
    rw [hk]
    simp [hm, he, hd]

/-- a key protected with passphrase "a". -/
def mkOneShot : PrivKey := { encrypted := true, pass := "a" }

/-- an entity with main key `mkOneShot` and one protected subkey. -/
def entOneShot : Entity :=
  { privateKey := some mkOneShot
    subkeys := [{ privateKey := { encrypted := true, pass := "a" } }] }

/-- armored private-key input carrying `entOneShot`. -/
def fOneShot : PGP :=
  { privateKey := .armored "PGP PRIVATE KEY BLOCK" (.entityData entOneShot)
    message := .raw []
    encrypted := false }

/-- a passphrase source whose first passphrase is the right one. -/
def stOneShot : CryptoState := { entityList := [], prompts := ["a"] }

/-- Witness for C4 (amended): the single correct first passphrase makes
`Keyring` succeed and append the decrypted entity. -/
theorem keyring_single_prompt_decides_witness :
    fOneShot.privateKey =
      KeyBytes.armored "PGP PRIVATE KEY BLOCK" (.entityData entOneShot) ∧
    entOneShot.privateKey = some mkOneShot ∧ mkOneShot.encrypted = true ∧
    Keyring stOneShot fOneShot = (.ok (),
      { entityList := [{ privateKey := some { encrypted := false, pass := "a" }
                         subkeys := decryptSubkeys "a" entOneShot.subkeys }]
        prompts := [] }) :=
  ⟨rfl, rfl, rfl,
    (keyring_single_prompt_decides stOneShot entOneShot mkOneShot fOneShot
      rfl rfl rfl).2 { encrypted := false, pass := "a" } rfl⟩

/-- Claim C8: `Keyring` is atomic with respect to the session keyring — every
failing call (not armored, wrong block type, unreadable entity, failed
primary-key decryption) leaves `entityList` unchanged, and a successful call
appends exactly one entity to it. -/
theorem keyring_atomic_on_error (st : CryptoState) (f : PGP) :
    (∀ e, (Keyring st f).1 = .error e →
      (Keyring st f).2.entityList = st.entityList) ∧
    ((Keyring st f).1 = .ok () →
      ∃ ent, (Keyring st f).2.entityList = st.entityList ++ [ent]) := by
  unfold Keyring shellPrompt
  cases hpk : f.privateKey with
  | notArmored => simp
  | armored btype body =>
    by_cases hb : btype = "PGP PRIVATE KEY BLOCK"
    · subst hb
      cases body with
      | unreadable => simp
      | entityData ent =>
        cases hm : ent.privateKey with
        | none => simp [hm]
        | some mk =>
          by_cases he : mk.encrypted
          · cases hd : mk.decrypt (st.prompts.head?.getD "") with
            | none => simp [hm, he, hd]
            | some mk2 => simp [hm, he, hd]
          · simp [hm, he]
    · simp [hb]

/-- keyring-build input that is not armor encoded. -/
def fNotArmored : PGP :=
  { privateKey := .notArmored, message := .raw [], encrypted := false }

/-- a session state with one entity already loaded. -/
def stLoaded : CryptoState := { entityList := [entRt], prompts := ["x"] }

/-- Witness for C8: a failing `Keyring` call (non-armored input) leaves the
loaded keyring untouched. -/
theorem keyring_atomic_on_error_witness :
    (Keyring stLoaded fNotArmored).1 = .error .notArmored ∧
    (Keyring stLoaded fNotArmored).2.entityList = stLoaded.entityList :=
  ⟨by decide,
    (keyring_atomic_on_error stLoaded fNotArmored).1 .notArmored (by decide)⟩

/-- Claim C9: every `Keyring` call consumes exactly one passphrase prompt —
taken before the input is parsed, so also on non-armored input, a wrong block
type, an unreadable entity or an unprotected key — and on success the
appended entity is the parsed entity with its primary key and all subkeys
decrypted using that same single passphrase. -/
theorem keyring_prompts_once_same_pass (st : CryptoState) (f : PGP) :
    (Keyring st f).2.prompts = st.prompts.drop 1 ∧
    (∀ ent, f.privateKey =
        KeyBytes.armored "PGP PRIVATE KEY BLOCK" (.entityData ent) →
      (Keyring st f).1 = .ok () →
      (Keyring st f).2.entityList =
        st.entityList ++ [decryptEntityWith (st.prompts.headD "") ent]) := by
  constructor
  · unfold Keyring shellPrompt
    dsimp only
    cases f.privateKey with
    | notArmored => rfl
    | armored btype body =>
      dsimp only
      by_cases hb : btype = "PGP PRIVATE KEY BLOCK"
      · subst hb
        rw [if_neg (by simp)]
        cases body with
        | unreadable => rfl
        | entityData ent =>
          dsimp only
          cases ent.privateKey with
          | none => rfl
          | some mk =>
            dsimp only
            by_cases he : mk.encrypted
            · rw [if_pos he]
              cases mk.decrypt (st.prompts.headD "") <;> rfl
            · rw [if_neg he]
      · rw [if_pos hb]
  · intro ent hent
    unfold Keyring shellPrompt
    dsimp only
    rw [hent]
    dsimp only
    rw [if_neg (by simp)]
    cases hm : ent.privateKey with
    | none =>
      intro _
      simp [hm, decryptEntityWith]
    | some mk =>
      dsimp only
      by_cases he : mk.encrypted
      · rw [if_pos he]
        cases hd : mk.decrypt (st.prompts.headD "") with
        | none => simp
        | some mk2 =>
          intro _
          simp only [List.headD_eq_head?_getD] at hd
          simp [decryptEntityWith, hm, he, hd]
      · rw [if_neg he]
        intro _
        simp [decryptEntityWith, hm, he]

/-- Witness for C9: a successful call on `entOneShot` consumes the one prompt
and appends the entity decrypted throughout with that prompt. -/
theorem keyring_prompts_once_same_pass_witness :
    (Keyring stOneShot fOneShot).2.prompts = stOneShot.prompts.drop 1 ∧
    (Keyring stOneShot fOneShot).1 = .ok () ∧
    (Keyring stOneShot fOneShot).2.entityList =
      stOneShot.entityList ++ [decryptEntityWith (stOneShot.prompts.headD "") entOneShot] :=
  ⟨(keyring_prompts_once_same_pass stOneShot fOneShot).1, by decide,
    (keyring_prompts_once_same_pass stOneShot fOneShot).2 entOneShot rfl (by decide)⟩

/-- Claim C2: on a repository whose checked-out branch "main" exists,
`CreateOrphanBranch u "alpha"` succeeds; afterwards branch "alpha" points at
a fresh commit with zero parents (authored by `u`, with the fixed message
template), branch "main" resolves exactly as before, and `BranchExists
"alpha"` is true. -/
theorem createOrphanBranch_spec (r : Repo) (u : User) (mainRef : Reference)
    (h1 : r.head = some "refs/heads/main")
    (h2 : r.reference "refs/heads/main" = .ok mainRef)
    (h3 : r.refs.any (fun x => x.name == "refs/heads/alpha") = false)
    (h4 : r.refsBroken = false)
    (h5 : r.commits.find? (fun c => c.hash == r.nextHash) = none) :
    ∃ r3, r.CreateOrphanBranch u "alpha" = .ok r3 ∧
      r3.reference "refs/heads/alpha" =
        .ok { name := "refs/heads/alpha", hash := r.nextHash } ∧
      r3.commits.find? (fun c => c.hash == r.nextHash) =
        some { hash := r.nextHash, parents := [], authorName := u.name
               authorEmail := u.email, message := "creating branch for: alpha"
               when := r.clock } ∧
      r3.reference "refs/heads/main" = r.reference "refs/heads/main" ∧
      r3.BranchExists "alpha" = true := by
  have hhh : r.headHash = .ok mainRef.hash := by
    unfold Repo.headHash
    rw [h1]
    dsimp only
    rw [h2]
  have hco : r.checkout true ("refs/heads/" ++ "alpha") 0 =
      .ok { refs := r.refs.filter (fun x => x.name != "refs/heads/alpha") ++
              [({ name := "refs/heads/alpha", hash := mainRef.hash } : Reference)]
            commits := r.commits
            head := some "refs/heads/alpha"
            nextHash := r.nextHash
            clock := r.clock
            refsBroken := r.refsBroken } := by
    have hs : ("refs/heads/" ++ "alpha" : String) = "refs/heads/alpha" := rfl
    rw [hs]
    unfold Repo.checkout
    simp [Repo.setReference, h3, hhh]
  have hrun : r.CreateOrphanBranch u "alpha" =
      .ok { refs := ((r.refs.filter (fun x => x.name != "refs/heads/alpha") ++
                [({ name := "refs/heads/alpha", hash := mainRef.hash } : Reference)]).filter
                  (fun x => x.name != "refs/heads/alpha")) ++
              [({ name := "refs/heads/alpha", hash := r.nextHash } : Reference)]
            commits := r.commits ++
              [{ hash := r.nextHash, parents := [], authorName := u.name
                 authorEmail := u.email
                 message := "creating branch for: " ++ "alpha"
                 when := r.clock }]
            head := some "refs/heads/alpha"
            nextHash := r.nextHash + 1
            clock := r.clock + 1
            refsBroken := r.refsBroken } := by
    unfold Repo.CreateOrphanBranch
    dsimp only
    rw [hco]
    rfl
  refine ⟨_, hrun, ?_, ?_, ?_, ?_⟩
  · unfold Repo.reference
    dsimp only
    rw [find?_setlist_self]
  · dsimp only
    rw [List.find?_append, h5]
    simp
  · unfold Repo.reference
    dsimp only
    rw [find?_setlist_ne _ _ _ _ (by decide), find?_setlist_ne _ _ _ _ (by decide)]
  · have hp : (refIsBranch "refs/heads/alpha" &&
        (refShort "refs/heads/alpha" == "alpha")) = true := by decide
    unfold Repo.BranchExists Repo.referencesIter
    dsimp only
    rw [h4]
    simp [List.any_append, hp]

/-- a repository with checked-out branch "main" at commit 1. -/
def repoMain : Repo :=
  { refs := [{ name := "refs/heads/main", hash := 1 }]
    commits := [{ hash := 1, parents := [], authorName := "Alice"
                  authorEmail := "alice@example.com", message := "root", when := 0 }]
    head := some "refs/heads/main"
    nextHash := 2
    clock := 1
    refsBroken := false }

/-- the identity used in concrete repository runs. -/
def userAlice : User := { name := "Alice", email := "alice@example.com" }

/-- Witness for C2 at a concrete one-branch repository. -/
theorem createOrphanBranch_spec_witness :
    repoMain.head = some "refs/heads/main" ∧
    repoMain.reference "refs/heads/main" =
      .ok { name := "refs/heads/main", hash := 1 } ∧
    (∃ r3, repoMain.CreateOrphanBranch userAlice "alpha" = .ok r3 ∧
      r3.reference "refs/heads/alpha" =
        .ok { name := "refs/heads/alpha", hash := repoMain.nextHash } ∧
      r3.commits.find? (fun c => c.hash == repoMain.nextHash) =
        some { hash := repoMain.nextHash, parents := [], authorName := userAlice.name
               authorEmail := userAlice.email, message := "creating branch for: alpha"
               when := repoMain.clock } ∧
      r3.reference "refs/heads/main" = repoMain.reference "refs/heads/main" ∧
      r3.BranchExists "alpha" = true) :=
  ⟨rfl, by decide,
    createOrphanBranch_spec repoMain userAlice { name := "refs/heads/main", hash := 1 }
      rfl (by decide) (by decide) rfl (by decide)⟩

/-- Witness for C6: two identical writes to a fresh path. -/
theorem writeFile_write_once_witness :
    pgpEnc.encrypted = true ∧ pgpEnc.message.isEmpty = false ∧
    fsEmpty.files.find? (fun kv => kv.1 == pathJoin "repo" "secret") = none ∧
    (∃ fs1, WriteFile pgpEnc fsEmpty "repo" "secret" = (.ok (), fs1) ∧
      fs1.files.find? (fun kv => kv.1 == pathJoin "repo" "secret") =
        some (pathJoin "repo" "secret", pgpEnc.message) ∧
      WriteFile pgpEnc fs1 "repo" "secret" = (.error .fileExists, fs1)) :=
  ⟨rfl, rfl, rfl,
    writeFile_write_once pgpEnc pgpEnc fsEmpty "repo" "secret" rfl rfl rfl rfl rfl⟩

end GoPass
